import Mathlib

/-!
Verification development for the `xml_dom` crate: a W3C DOM Level 2 Core
node-tree engine.  The repository's `src/lib.rs` holds the crate-level
documentation, doctests and module re-exports; the implementing modules
(`trait_impls`, `error`, `name`, ...) are not part of the source snapshot,
so the node tree, its mutation-legality algorithm, the character-data
operations, the factory and the feature queries below are modelled from the
specification's own words (each such definition says so in its doc comment).
The crate-level doctests that are present in `src/lib.rs` are used as
concrete code evidence where they bear on a claim.
-/

/-- Node kinds of the DOM tree.  Modelled from the spec: the 12 enumerated
kinds (document, element, attribute, text, comment, CDATA section,
processing instruction, entity, entity reference, notation declaration,
document fragment, document type). -/
inductive NodeKind where
  | document
  | element
  | attr
  | text
  | comment
  | cdata
  | procInst
  | entity
  | entityRef
  | notatn
  | docFragment
  | docType
deriving DecidableEq

/-- Error taxonomy.  Modelled from the spec: the fixed set of exception
kinds (section 7 of the design). -/
inductive DomError where
  | hierarchyViolation
  | wrongOwningDocument
  | noModificationAllowed
  | notFound
  | notSupported
  | inUseAttribute
  | invalidCharacter
  | namespaceViolation
  | indexOutOfRange
  | resourceConflict
  | serializationFailure
deriving DecidableEq

/-- Node storage record.  Modelled from the spec: kind, qualified name,
optional value, ordered child sequence (as node ids), attribute mapping,
optional namespace URI and prefix, non-owning owner-document and parent
references (as ids), and a read-only flag. -/
structure Node where
  kind : NodeKind
  name : String
  value : Option String
  children : List Nat
  attributes : List (String × String)
  nsUri : Option String
  pfx : Option String
  ownerDocument : Option Nat
  parent : Option Nat
  readOnly : Bool
deriving DecidableEq

/-- Tree state: an association list from node id to node record plus the
next fresh id.  This is the shallow embedding of the `Rc`-cell node store. -/
structure DomState where
  nodes : List (Nat × Node)
  nextId : Nat
deriving DecidableEq

/-- Look a node up by id. -/
def getNode (s : DomState) (id : Nat) : Option Node :=
  match s.nodes.find? (fun p => p.1 == id) with
  | some p => some p.2
  | none => none

/-- Replace the record stored under an id (no effect if the id is absent). -/
def setNode (s : DomState) (id : Nat) (n : Node) : DomState :=
  { s with nodes := s.nodes.map (fun p => if p.1 == id then (id, n) else p) }

/-- True when the node stored under `id` has kind `k`. -/
def kindIs (s : DomState) (id : Nat) (k : NodeKind) : Bool :=
  match getNode s id with
  | some n => n.kind == k
  | none => false

/-- Parent id of a node, if any. -/
def parentOf (s : DomState) (id : Nat) : Option Nat :=
  match getNode s id with
  | some n => n.parent
  | none => none

/-- Chain of ancestors of a node obtained by following parent links, with
explicit fuel (the store size bounds every simple ancestor chain). -/
def ancChain (s : DomState) : Nat → Nat → List Nat
  | 0, _ => []
  | fuel + 1, i =>
    match parentOf s i with
    | none => []
    | some p => p :: ancChain s fuel p

/-- Whether `a` is a (strict) ancestor of `n` along parent links. -/
def isAncestor (s : DomState) (a n : Nat) : Bool :=
  (ancChain s s.nodes.length n).contains a

/-- Detach a node from its current parent, if it has one: the parent's child
sequence loses the first occurrence of the id and the node's parent link is
cleared.  Modelled from the spec: "detach `new` from its current parent (if
any) before attaching at the new position". -/
def detach (s : DomState) (id : Nat) : DomState :=
  match getNode s id with
  | none => s
  | some n =>
    match n.parent with
    | none => s
    | some p =>
      match getNode s p with
      | none => setNode s id { n with parent := none }
      | some pn =>
        setNode (setNode s p { pn with children := pn.children.erase id }) id
          { n with parent := none }

/-- Legal-child table.  Modelled from the spec: "Text, Comment,
CDATASection, ProcessingInstruction, Entity-value nodes, and Attribute
values accept no children; Document accepts only Element, DocumentType,
Comment, ProcessingInstruction; Element accepts Element, Text, Comment,
CDATASection, ProcessingInstruction, EntityReference" (a DocumentFragment
groups element-content siblings and accepts what an Element accepts). -/
def legalChild : NodeKind → NodeKind → Bool
  | .document, c =>
    c == .element || c == .docType || c == .comment || c == .procInst
  | .element, c =>
    c == .element || c == .text || c == .comment || c == .cdata ||
      c == .procInst || c == .entityRef
  | .docFragment, c =>
    c == .element || c == .text || c == .comment || c == .cdata ||
      c == .procInst || c == .entityRef
  | _, _ => false

/-- Whether attaching `newId` (of record `newN`) under document node `self`
would give the document a second Element child or a second DocumentType
child.  Modelled from the spec: "A Document has at most one Element child
(the document element) and at most one DocumentType child", an invariant
"enforced uniformly at every mutation entry point". -/
def docUniqueViolation (s : DomState) (self : Node) (newId : Nat) (newN : Node) : Bool :=
  (self.kind == .document && newN.kind == .element &&
    self.children.any (fun c => c != newId && kindIs s c .element))
  ||
  (self.kind == .document && newN.kind == .docType &&
    self.children.any (fun c => c != newId && kindIs s c .docType))

/-- Redirect a node's parent link (no effect if the id is absent). -/
def setParentRef (s : DomState) (id : Nat) (p : Option Nat) : DomState :=
  match getNode s id with
  | some n => setNode s id { n with parent := p }
  | none => s

/-- Mechanical attach step used once every legality check has passed:
detach the new child from its previous parent, splice it into the target's
child sequence (at the end, or right before `r`), and point its parent link
at the target. -/
def attachAt (s : DomState) (selfId newId : Nat) (r : Option Nat) :
    Option DomError × DomState :=
  let s1 := detach s newId
  match getNode s1 selfId with
  | some self1 =>
    let newChildren :=
      match r with
      | none => self1.children ++ [newId]
      | some rr =>
        self1.children.takeWhile (fun c => c ≠ rr) ++
          newId :: self1.children.dropWhile (fun c => c ≠ rr)
    (none,
      setParentRef (setNode s1 selfId { self1 with children := newChildren }) newId
        (some selfId))
  | none => (some DomError.notFound, s)

/-- The `insert_before` mutation.  Modelled from the spec's mutation
legality algorithm, applied before any structural change: (1) reject if the
target is read-only (NoModificationAllowed); (2) reject if the new node's
owning document differs from the target's (WrongOwningDocument); (3) reject
if the new node's kind is not a legal child kind for the target's kind
(HierarchyViolation); (4) reject if the new node is the target or one of
its ancestors, which would create a cycle (HierarchyViolation); the
document-uniqueness invariant is enforced at the same entry point; if all
checks pass, the new node is detached from its current parent and attached
at the requested position.  A missing reference child reports NotFound. -/
def insertBefore (s : DomState) (selfId newId : Nat) (refId : Option Nat) :
    Option DomError × DomState :=
  match getNode s selfId, getNode s newId with
  | some self, some newN =>
    if self.readOnly then (some DomError.noModificationAllowed, s)
    else if self.ownerDocument ≠ newN.ownerDocument then
      (some DomError.wrongOwningDocument, s)
    else if ¬ legalChild self.kind newN.kind then
      (some DomError.hierarchyViolation, s)
    else if newId = selfId ∨ isAncestor s newId selfId then
      (some DomError.hierarchyViolation, s)
    else if docUniqueViolation s self newId newN then
      (some DomError.hierarchyViolation, s)
    else
      match refId with
      | none => attachAt s selfId newId none
      | some rr =>
        if self.children.contains rr then attachAt s selfId newId (some rr)
        else (some DomError.notFound, s)
  | _, _ => (some DomError.notFound, s)

/-- The `append_child` mutation: insertion with no reference child. -/
def appendChild (s : DomState) (selfId newId : Nat) : Option DomError × DomState :=
  insertBefore s selfId newId none

/-- The `remove_child` mutation.  Modelled from the spec: read-only targets
reject mutation; a node that is not a child of the target reports NotFound;
otherwise the child is removed from the sequence and its parent link
cleared. -/
def removeChild (s : DomState) (selfId childId : Nat) : Option DomError × DomState :=
  match getNode s selfId with
  | some self =>
    if self.readOnly then (some DomError.noModificationAllowed, s)
    else if ¬ self.children.contains childId then (some DomError.notFound, s)
    else
      (none,
        setParentRef
          (setNode s selfId { self with children := self.children.erase childId })
          childId none)
  | none => (some DomError.notFound, s)

/-- The `replace_child` mutation.  Modelled from the spec: same legality
checks as insertion, then the old child's slot is given to the new node,
the old child is detached, and parent links are updated; a missing old
child reports NotFound. -/
def replaceChild (s : DomState) (selfId newId oldId : Nat) :
    Option DomError × DomState :=
  match getNode s selfId, getNode s newId with
  | some self, some newN =>
    if self.readOnly then (some DomError.noModificationAllowed, s)
    else if self.ownerDocument ≠ newN.ownerDocument then
      (some DomError.wrongOwningDocument, s)
    else if ¬ legalChild self.kind newN.kind then
      (some DomError.hierarchyViolation, s)
    else if newId = selfId ∨ isAncestor s newId selfId then
      (some DomError.hierarchyViolation, s)
    else if
      (self.kind == .document && newN.kind == .element &&
        self.children.any (fun c => c != newId && c != oldId && kindIs s c .element))
      ||
      (self.kind == .document && newN.kind == .docType &&
        self.children.any (fun c => c != newId && c != oldId && kindIs s c .docType))
    then (some DomError.hierarchyViolation, s)
    else if ¬ self.children.contains oldId then (some DomError.notFound, s)
    else
      let s1 := detach s newId
      match getNode s1 selfId with
      | some self1 =>
        let s2 := setNode s1 selfId
          { self1 with children := self1.children.map (fun c => if c = oldId then newId else c) }
        (none, setParentRef (setParentRef s2 oldId none) newId (some selfId))
      | none => (some DomError.notFound, s)
  | _, _ => (some DomError.notFound, s)

/-- Kinds whose `value` attribute is writeable (text content for
Text/Comment/CDATASection, data for ProcessingInstruction, value for
Attribute); for the remaining kinds setting a value is not applicable. -/
def canSetValue : NodeKind → Bool
  | .text => true
  | .comment => true
  | .cdata => true
  | .procInst => true
  | .attr => true
  | _ => false

/-- Character-data kinds (the base of Text/Comment/CDATASection). -/
def isCharacterData : NodeKind → Bool
  | .text => true
  | .comment => true
  | .cdata => true
  | _ => false

/-- The `set_value` mutation.  Modelled from the spec: read-only nodes
reject mutation; kinds with no value meaning report NotSupported. -/
def setNodeValue (s : DomState) (id : Nat) (v : String) : Option DomError × DomState :=
  match getNode s id with
  | some n =>
    if n.readOnly then (some DomError.noModificationAllowed, s)
    else if ¬ canSetValue n.kind then (some DomError.notSupported, s)
    else (none, setNode s id { n with value := some v })
  | none => (some DomError.notFound, s)

/-- The `set_data` mutation on a CharacterData node.  Modelled from the
spec. -/
def setData (s : DomState) (id : Nat) (v : String) : Option DomError × DomState :=
  match getNode s id with
  | some n =>
    if n.readOnly then (some DomError.noModificationAllowed, s)
    else if ¬ isCharacterData n.kind then (some DomError.notSupported, s)
    else (none, setNode s id { n with value := some v })
  | none => (some DomError.notFound, s)

/-- Decidable equality for fallible results, used to evaluate the
character-data operations on concrete inputs. -/
instance {e a : Type} [DecidableEq e] [DecidableEq a] : DecidableEq (Except e a)
  | .ok x, .ok y => decidable_of_iff (x = y) (by simp)
  | .error x, .error y => decidable_of_iff (x = y) (by simp)
  | .ok _, .error _ => isFalse (by simp)
  | .error _, .ok _ => isFalse (by simp)

/-- The pure `substring_data` operation on character data.  Modelled from
the spec: "all offset/count operations bounds-check against `length()` and
fail with an index error when out of range". -/
def substringData (data : String) (off cnt : Nat) : Except DomError String :=
  if off > data.length ∨ off + cnt > data.length then .error DomError.indexOutOfRange
  else .ok (String.mk ((data.data.drop off).take cnt))

/-- The pure `delete_data` operation on character data.  Modelled from the
spec: bounds-checked against the data length, it removes the `cnt`
characters starting at `off`. -/
def deleteData (data : String) (off cnt : Nat) : Except DomError String :=
  if off > data.length ∨ off + cnt > data.length then .error DomError.indexOutOfRange
  else .ok (String.mk (data.data.take off ++ data.data.drop (off + cnt)))

/-- The pure `insert_data` operation on character data.  Modelled from the
spec: bounds-checked against the data length, it inserts `arg` at `off`. -/
def insertData (data : String) (off : Nat) (arg : String) : Except DomError String :=
  if off > data.length then .error DomError.indexOutOfRange
  else .ok (String.mk (data.data.take off ++ arg.data ++ data.data.drop off))

/-- The pure `replace_data` operation on character data.  Modelled from the
spec: bounds-checked against the data length, it replaces the `cnt`
characters starting at `off` with `arg`. -/
def replaceData (data : String) (off cnt : Nat) (arg : String) : Except DomError String :=
  if off > data.length ∨ off + cnt > data.length then .error DomError.indexOutOfRange
  else .ok (String.mk (data.data.take off ++ arg.data ++ data.data.drop (off + cnt)))

/-- The `delete_data` mutation applied to a node of the tree. -/
def deleteDataNode (s : DomState) (id : Nat) (off cnt : Nat) :
    Option DomError × DomState :=
  match getNode s id with
  | some n =>
    if n.readOnly then (some DomError.noModificationAllowed, s)
    else if ¬ isCharacterData n.kind then (some DomError.notSupported, s)
    else
      match deleteData (n.value.getD "") off cnt with
      | .error e => (some e, s)
      | .ok d => (none, setNode s id { n with value := some d })
  | none => (some DomError.notFound, s)

/-- Name-start character class.  Modelled from the spec's name validator
(name-start rules: letters and underscore). -/
def isNameStart (c : Char) : Bool :=
  c.isAlpha || c == '_'

/-- Name-continue character class.  Modelled from the spec's name validator
(name-continue rules: name-start characters, digits, hyphen, dot). -/
def isNameChar (c : Char) : Bool :=
  isNameStart c || c.isDigit || c == '-' || c == '.'

/-- Validity of a colon-free name part. -/
def isNCNameL : List Char → Bool
  | [] => false
  | c :: cs => isNameStart c && cs.all isNameChar

/-- Split a character list at the first colon, if any. -/
def splitColon : List Char → List Char × Option (List Char)
  | [] => ([], none)
  | c :: cs =>
    if c == ':' then ([], some cs)
    else
      let r := splitColon cs
      (c :: r.1, r.2)

/-- Qualified-name validation.  Modelled from the spec: a qualified name is
an optionally prefixed `px:local` pair whose parts each satisfy the
character-class rules. -/
def validQName (q : String) : Bool :=
  match splitColon q.data with
  | (loc, none) => isNCNameL loc
  | (px, some loc) => isNCNameL px && isNCNameL loc

/-- The prefix of a qualified name, when one is present. -/
def qnamePfx (q : String) : Option String :=
  match splitColon q.data with
  | (_, none) => none
  | (px, some _) => some (String.mk px)

/-- The `set_attribute` mutation on an Element.  Modelled from the spec:
creates or updates the attribute of that name after validating it. -/
def upsertAttr : List (String × String) → String → String → List (String × String)
  | [], k, v => [(k, v)]
  | (k0, v0) :: rest, k, v =>
    if k0 = k then (k, v) :: rest else (k0, v0) :: upsertAttr rest k v

/-- The `set_attribute` mutation.  Modelled from the spec: read-only nodes
reject mutation, non-Element targets are unsupported, the attribute name is
validated, and the mapping entry is created or updated in place. -/
def setAttribute (s : DomState) (id : Nat) (an av : String) :
    Option DomError × DomState :=
  match getNode s id with
  | some n =>
    if n.readOnly then (some DomError.noModificationAllowed, s)
    else if n.kind ≠ NodeKind.element then (some DomError.notSupported, s)
    else if ¬ validQName an then (some DomError.invalidCharacter, s)
    else (none, setNode s id { n with attributes := upsertAttr n.attributes an av })
  | none => (some DomError.notFound, s)

/-- Supported feature pairs of the implementation.  Modelled from the spec
and the `has_feature` doctest in `src/lib.rs`: exactly Core/1.0, Core/2.0,
XML/1.0 and XML/2.0 are recognized. -/
def featurePairs : List (String × String) :=
  [("Core", "1.0"), ("Core", "2.0"), ("XML", "1.0"), ("XML", "2.0")]

/-- The `has_feature` query of the DOMImplementation. -/
def hasFeature (name version : String) : Bool :=
  featurePairs.contains (name, version)

/-- The `is_supported` query of Node.  Modelled from the spec: the crate
documentation in `src/lib.rs` states that `is_supported` "will return true
when the request is for support of the Core or XML feature and supports
both version 1.0 and version 2.0 of these features". -/
def isSupported (feature version : String) : Bool :=
  (feature == "Core" || feature == "XML") && (version == "1.0" || version == "2.0")

/-- A fresh node record used by the factory operations. -/
def mkNode (k : NodeKind) (name : String) (ow : Option Nat) : Node :=
  { kind := k, name := name, value := none, children := [], attributes := [],
    nsUri := none, pfx := none, ownerDocument := ow, parent := none,
    readOnly := false }

/-- The empty tree state. -/
def emptyState : DomState := { nodes := [], nextId := 0 }

/-- The factory's `create_document(namespace_uri, qualified_name, doctype)`.
Modelled from the spec and the crate-level doctest in `src/lib.rs`: the
qualified name is validated and the Document node is constructed (carrying
the name and namespace URI, and a DocumentType child when one is given); no
document element is created — the doctest builds the document element
itself with `create_element` and a subsequent `append_child`, and the
spec's concrete scenario 1 states the document has no document element
until one is appended.  The document node is its own owning document. -/
def createDocument (ns : Option String) (qname : String) (doctypeName : Option String) :
    Option DomError × DomState :=
  if ¬ validQName qname then (some DomError.invalidCharacter, emptyState)
  else
    let docNode : Node :=
      { mkNode NodeKind.document qname (some 0) with nsUri := ns, pfx := qnamePfx qname }
    match doctypeName with
    | none => (none, { nodes := [(0, docNode)], nextId := 1 })
    | some dn =>
      let dt : Node := { mkNode NodeKind.docType dn (some 0) with parent := some 0 }
      (none, { nodes := [(0, { docNode with children := [1] }), (1, dt)], nextId := 2 })

/-- The Document's `create_element(name)`.  Modelled from the spec: the
name is validated and a fresh detached Element owned by the document is
added to the store; the new node's id is returned alongside the state. -/
def createElement (s : DomState) (docId : Nat) (name : String) :
    Option DomError × DomState × Nat :=
  if ¬ validQName name then (some DomError.invalidCharacter, s, 0)
  else
    match getNode s docId with
    | some d =>
      if d.kind ≠ NodeKind.document then (some DomError.notSupported, s, 0)
      else
        (none,
          { nodes := s.nodes ++ [(s.nextId, mkNode NodeKind.element name (some docId))],
            nextId := s.nextId + 1 },
          s.nextId)
    | none => (some DomError.notFound, s, 0)

/-- The Document's `document_element()` accessor: its first Element child,
if any. -/
def documentElement (s : DomState) (docId : Nat) : Option Nat :=
  match getNode s docId with
  | some d =>
    if d.kind == NodeKind.document then d.children.find? (fun c => kindIs s c .element)
    else none
  | none => none

/-- Enumeration of the node kinds. -/
instance : Fintype NodeKind where
  elems :=
    ⟨[NodeKind.document, NodeKind.element, NodeKind.attr, NodeKind.text,
      NodeKind.comment, NodeKind.cdata, NodeKind.procInst, NodeKind.entity,
      NodeKind.entityRef, NodeKind.notatn, NodeKind.docFragment, NodeKind.docType],
      by decide⟩
  complete := by intro x; cases x <;> decide

/-- Pure value view of a node subtree, used to state the behaviour of
`normalize()`: a kind, a name, a character-data value and an ordered child
list. -/
inductive XTree where
  | node : NodeKind → String → String → List XTree → XTree

/-- Character data of a childless Text node, when the tree is one. -/
def textOf : XTree → Option String
  | .node .text _ v [] => some v
  | _ => none

/-- Name component of a tree node. -/
def nameOf : XTree → String
  | .node _ n _ _ => n

/-- Child list of a tree node. -/
def childrenOf : XTree → List XTree
  | .node _ _ _ cs => cs

/-- One right-fold step of child normalization.  Modelled from the spec:
`normalize()` "merges adjacent Text children and drops empty ones".  A
childless Text head merges with an immediately following childless Text,
and an empty Text is dropped. -/
def normStep (t : XTree) (acc : List XTree) : List XTree :=
  match textOf t with
  | none => t :: acc
  | some v =>
    match acc with
    | [] => if v = "" then [] else [t]
    | u :: rest =>
      match textOf u with
      | some w =>
        if v ++ w = "" then rest
        else XTree.node NodeKind.text (nameOf t) (v ++ w) [] :: rest
      | none => if v = "" then acc else t :: acc

mutual

/-- The `normalize()` operation on a subtree: children are normalized
recursively and then merged/filtered at this level. -/
def XTree.normalize : XTree → XTree
  | .node k n v cs => .node k n v (XTree.normList cs)

/-- Normalization of a child list: each child is normalized, then adjacent
childless Text nodes are merged and empty ones dropped. -/
def XTree.normList : List XTree → List XTree
  | [] => []
  | t :: ts => normStep (XTree.normalize t) (XTree.normList ts)

end

/-- Head condition of a normalized child list: a childless Text head is
nonempty and is not immediately followed by another childless Text. -/
def okHead (t : XTree) (rest : List XTree) : Bool :=
  (textOf t).elim true fun v =>
    (v != "") && rest.head?.all fun u => (textOf u).isNone

/-- A child list with no empty Text child and no adjacent Text children. -/
def normalL : List XTree → Bool
  | [] => true
  | t :: ts => okHead t ts && normalL ts

mutual

/-- Every child list in the subtree is normalized. -/
def allNormal : XTree → Bool
  | .node _ _ _ cs => normalL cs && allNormalL cs

/-- List version of `allNormal`. -/
def allNormalL : List XTree → Bool
  | [] => true
  | t :: ts => allNormal t && allNormalL ts

end

/-! Helper lemmas for the normalization development. -/

theorem XTree.ind_on {P : XTree → Prop}
    (h : ∀ k n v cs, (∀ t ∈ cs, P t) → P (XTree.node k n v cs)) : ∀ t, P t := by
  intro t
  induction t using XTree.rec (motive_2 := fun l => ∀ x ∈ l, P x) with
  | node k n v cs ih => exact h k n v cs ih
  | nil =>
    rename_i x hx
    exact absurd hx (List.not_mem_nil x)
  | cons a l iha ihl =>
    rename_i x hx
    cases hx with
    | head => exact iha
    | tail _ h2 => exact ihl x h2

theorem normalize_childless (k : NodeKind) (n v : String) :
    XTree.normalize (XTree.node k n v []) = XTree.node k n v [] := by
  rw [XTree.normalize, XTree.normList]

theorem normStep_mem {e t : XTree} {acc : List XTree} (h : e ∈ normStep t acc) :
    e = t ∨ e ∈ acc ∨ ∃ n v, e = XTree.node NodeKind.text n v [] := by
  unfold normStep at h
  split at h
  · rcases List.mem_cons.mp h with h1 | h2
    · exact Or.inl h1
    · exact Or.inr (Or.inl h2)
  · split at h
    · split at h
      · cases h
      · exact Or.inl (List.mem_singleton.mp h)
    · split at h
      · split at h
        · exact Or.inr (Or.inl (List.mem_cons_of_mem _ h))
        · rcases List.mem_cons.mp h with h1 | h2
          · exact Or.inr (Or.inr ⟨_, _, h1⟩)
          · exact Or.inr (Or.inl (List.mem_cons_of_mem _ h2))
      · split at h
        · exact Or.inr (Or.inl h)
        · rcases List.mem_cons.mp h with h1 | h2
          · exact Or.inl h1
          · exact Or.inr (Or.inl h2)

theorem normStep_normal {t : XTree} {acc : List XTree} (h : normalL acc = true) :
    normalL (normStep t acc) = true := by
  unfold normStep
  split
  · rename_i htx
    simp [normalL, okHead, htx, h]
  · rename_i v htx
    split
    · split
      · rfl
      · rename_i hv
        simp [normalL, okHead, htx, hv]
    · rename_i u rest
      have hparts : okHead u rest = true ∧ normalL rest = true := by
        simpa [normalL, Bool.and_eq_true] using h
      split
      · rename_i w htu
        have hok := hparts.1
        unfold okHead at hok
        rw [htu] at hok
        simp only [Option.elim, Bool.and_eq_true] at hok
        split
        · exact hparts.2
        · rename_i hvw
          simp only [normalL, Bool.and_eq_true]
          refine ⟨?_, hparts.2⟩
          unfold okHead
          simp only [textOf, Option.elim, Bool.and_eq_true]
          exact ⟨by simpa using hvw, hok.2⟩
      · rename_i htu
        split
        · exact h
        · rename_i hv
          simp only [normalL, Bool.and_eq_true]
          refine ⟨?_, hparts.1, hparts.2⟩
          unfold okHead
          rw [htx]
          simp [htu, hv]

theorem normStep_id {t : XTree} {ts : List XTree} (h : normalL (t :: ts) = true) :
    normStep t ts = t :: ts := by
  have hparts : okHead t ts = true ∧ normalL ts = true := by
    simpa [normalL, Bool.and_eq_true] using h
  unfold normStep
  split
  · rfl
  · rename_i v htx
    have hok := hparts.1
    unfold okHead at hok
    rw [htx] at hok
    simp only [Option.elim, Bool.and_eq_true] at hok
    have hv : ¬ v = "" := by simpa using hok.1
    split
    · simp [hv]
    · rename_i u rest
      have hu : (textOf u).isNone = true := by simpa using hok.2
      split
      · rename_i w htu
        rw [htu] at hu
        cases hu
      · simp [hv]

theorem foldr_normStep_id {l : List XTree} (h : normalL l = true) :
    List.foldr normStep [] l = l := by
  induction l with
  | nil => rfl
  | cons t ts ih =>
    have hts : normalL ts = true := by
      simp only [normalL, Bool.and_eq_true] at h
      exact h.2
    rw [List.foldr_cons, ih hts]
    exact normStep_id h

theorem normList_normal (l : List XTree) : normalL (XTree.normList l) = true := by
  induction l with
  | nil => rfl
  | cons t ts ih =>
    rw [XTree.normList]
    exact normStep_normal ih

theorem normList_eq_foldr {l : List XTree} (h : ∀ e ∈ l, XTree.normalize e = e) :
    XTree.normList l = List.foldr normStep [] l := by
  induction l with
  | nil => rfl
  | cons t ts ih =>
    rw [XTree.normList, List.foldr_cons, h t (List.mem_cons_self t ts),
      ih (fun e he => h e (List.mem_cons_of_mem t he))]

theorem normList_mem {e : XTree} {l : List XTree} (h : e ∈ XTree.normList l) :
    (∃ c ∈ l, e = XTree.normalize c) ∨ ∃ n v, e = XTree.node NodeKind.text n v [] := by
  induction l with
  | nil => rw [XTree.normList] at h; cases h
  | cons t ts ih =>
    rw [XTree.normList] at h
    rcases normStep_mem h with h1 | h2 | h3
    · exact Or.inl ⟨t, List.mem_cons_self t ts, h1⟩
    · rcases ih h2 with ⟨c, hc, hce⟩ | h3
      · exact Or.inl ⟨c, List.mem_cons_of_mem t hc, hce⟩
      · exact Or.inr h3
    · exact Or.inr h3

theorem xnormalize_idem : ∀ t, XTree.normalize (XTree.normalize t) = XTree.normalize t := by
  apply XTree.ind_on
  intro k n v cs ih
  rw [XTree.normalize, XTree.normalize]
  have hfix : ∀ e ∈ XTree.normList cs, XTree.normalize e = e := by
    intro e he
    rcases normList_mem he with ⟨c, hc, rfl⟩ | ⟨n2, v2, rfl⟩
    · exact ih c hc
    · exact normalize_childless _ _ _
  rw [normList_eq_foldr hfix, foldr_normStep_id (normList_normal cs)]

theorem allNormalL_iff {l : List XTree} :
    allNormalL l = true ↔ ∀ e ∈ l, allNormal e = true := by
  induction l with
  | nil => simp [allNormalL]
  | cons t ts ih => simp [allNormalL, Bool.and_eq_true, ih]

theorem allNormal_normalize : ∀ t, allNormal (XTree.normalize t) = true := by
  apply XTree.ind_on
  intro k n v cs ih
  rw [XTree.normalize, allNormal]
  simp only [Bool.and_eq_true]
  refine ⟨normList_normal cs, ?_⟩
  rw [allNormalL_iff]
  intro e he
  rcases normList_mem he with ⟨c, hc, rfl⟩ | ⟨n2, v2, rfl⟩
  · exact ih c hc
  · rw [allNormal]
    rfl

/-! Helper lemmas for the mutation operations. -/

theorem insertBefore_hier_on_cycle (s : DomState) (n a : Nat) (r : Option Nat)
    (nn an : Node)
    (hn : getNode s n = some nn) (ha : getNode s a = some an)
    (hro : nn.readOnly = false) (hod : nn.ownerDocument = an.ownerDocument)
    (hanc : a = n ∨ isAncestor s a n = true) :
    insertBefore s n a r = (some DomError.hierarchyViolation, s) := by
  unfold insertBefore
  rw [hn, ha]
  dsimp only
  rw [if_neg (by simp [hro]), if_neg (by simp [hod])]
  by_cases hleg : legalChild nn.kind an.kind = true
  · rw [if_neg (by simp [hleg]), if_pos hanc]
  · rw [if_pos (by simp [Bool.not_eq_true] at hleg ⊢; exact hleg)]

theorem insertBefore_wrong_doc (s : DomState) (p n : Nat) (pn nn : Node) (d1 d2 : Nat)
    (hp : getNode s p = some pn) (hn : getNode s n = some nn)
    (hro : pn.readOnly = false)
    (h2 : pn.ownerDocument = some d2) (h1 : nn.ownerDocument = some d1)
    (hne : d1 ≠ d2) :
    appendChild s p n = (some DomError.wrongOwningDocument, s) := by
  have howner : pn.ownerDocument ≠ nn.ownerDocument := by
    rw [h1, h2]
    intro hq
    exact hne (Option.some_injective Nat hq.symm)
  unfold appendChild insertBefore
  rw [hp, hn]
  dsimp only
  rw [if_neg (by simp [hro]), if_pos howner]

theorem attachAt_fail_keep (s : DomState) (a b : Nat) (r : Option Nat) :
    (attachAt s a b r).1 = none ∨ (attachAt s a b r).2 = s := by
  unfold attachAt
  rcases hg : getNode (detach s b) a with _ | self1 <;> simp [hg]

theorem insertBefore_fail_keep (s : DomState) (a b : Nat) (r : Option Nat) :
    (insertBefore s a b r).1 = none ∨ (insertBefore s a b r).2 = s := by
  unfold insertBefore
  repeat' split
  all_goals first
    | simp
    | exact attachAt_fail_keep s a b none
    | (rename_i rr _; exact attachAt_fail_keep s a b (some rr))

theorem replaceChild_fail_keep (s : DomState) (a b c : Nat) :
    (replaceChild s a b c).1 = none ∨ (replaceChild s a b c).2 = s := by
  unfold replaceChild
  repeat' split
  all_goals try simp
  all_goals (rcases hg : getNode (detach s b) a with _ | self1 <;> simp [hg])

theorem removeChild_fail_keep (s : DomState) (a b : Nat) :
    (removeChild s a b).1 = none ∨ (removeChild s a b).2 = s := by
  unfold removeChild
  repeat' split
  all_goals simp

theorem setNodeValue_fail_keep (s : DomState) (i : Nat) (v : String) :
    (setNodeValue s i v).1 = none ∨ (setNodeValue s i v).2 = s := by
  unfold setNodeValue
  repeat' split
  all_goals simp

theorem setData_fail_keep (s : DomState) (i : Nat) (v : String) :
    (setData s i v).1 = none ∨ (setData s i v).2 = s := by
  unfold setData
  repeat' split
  all_goals simp

theorem setAttribute_fail_keep (s : DomState) (i : Nat) (an av : String) :
    (setAttribute s i an av).1 = none ∨ (setAttribute s i an av).2 = s := by
  unfold setAttribute
  repeat' split
  all_goals simp

theorem deleteDataNode_fail_keep (s : DomState) (i o c : Nat) :
    (deleteDataNode s i o c).1 = none ∨ (deleteDataNode s i o c).2 = s := by
  unfold deleteDataNode
  repeat' split
  all_goals simp

/-! Concrete states used by the claim instances. -/

/-- Canonical three-node state for the kind-legality table: a document, a
detached parent of kind `pk` and a detached candidate child of kind `ck`,
all sharing one owning document and none read-only. -/
def kindPairState (pk ck : NodeKind) : DomState :=
  { nodes := [(0, mkNode NodeKind.document "d" (some 0)), (1, mkNode pk "p" (some 0)),
      (2, mkNode ck "c" (some 0))],
    nextId := 3 }

/-- Document record of the two-node document/element chain. -/
def chainDoc : Node := { mkNode NodeKind.document "d" (some 0) with children := [1] }

/-- Element record of the two-node document/element chain. -/
def chainElem : Node := { mkNode NodeKind.element "r" (some 0) with parent := some 0 }

/-- Two-node tree: a document whose only child is an element. -/
def chainState : DomState := { nodes := [(0, chainDoc), (1, chainElem)], nextId := 2 }

/-- Tree with a read-only entity node under a doctype. -/
def roState : DomState :=
  { nodes := [(0, { mkNode NodeKind.document "d" (some 0) with children := [1] }),
      (1, { mkNode NodeKind.docType "dt" (some 0) with parent := some 0, children := [2] }),
      (2, { mkNode NodeKind.entity "ent" (some 0) with parent := some 1, readOnly := true })],
    nextId := 3 }

/-- Second document of the cross-document store. -/
def crossDoc2 : Node := { mkNode NodeKind.document "d2" (some 10) with children := [11] }

/-- Element owned by the first document of the cross-document store. -/
def crossElem : Node := mkNode NodeKind.element "n" (some 0)

/-- Store holding two documents, with a read-only entity under the second. -/
def crossState : DomState :=
  { nodes := [(0, mkNode NodeKind.document "d1" (some 0)),
      (1, crossElem),
      (10, crossDoc2),
      (11, { mkNode NodeKind.docType "dt" (some 10) with parent := some 10, children := [12] }),
      (12, { mkNode NodeKind.entity "ent" (some 10) with parent := some 11, readOnly := true })],
    nextId := 13 }

/-- Document record that already has an element child. -/
def twoElemDoc : Node := { mkNode NodeKind.document "d" (some 0) with children := [1] }

/-- Second, detached element of the same document. -/
def twoElemB : Node := mkNode NodeKind.element "b" (some 0)

/-- Tree whose document has an element child plus a second detached element. -/
def twoElemState : DomState :=
  { nodes := [(0, twoElemDoc),
      (1, { mkNode NodeKind.element "a" (some 0) with parent := some 0 }),
      (2, twoElemB)],
    nextId := 3 }

/-- Concrete scenario 1, step 1: the document produced by
`create_document(nil, "root", nil)`. -/
def scen1a : DomState := (createDocument none "root" none).2

/-- Concrete scenario 1, step 2: after `create_element("root")` (the new
element receives id 1). -/
def scen1b : DomState := (createElement scen1a 0 "root").2.1

/-- One text node holding the data "hello". -/
def helloState : DomState :=
  { nodes := [(0, { mkNode NodeKind.text "#text" (some 0) with value := some "hello" })],
    nextId := 1 }

/-! Claim theorems. -/

/-- Claim C1: on a canonical same-document pair of fresh nodes, append_child
with a parent of kind K and a child of kind C succeeds exactly when C is in
K's legal-child set (Document accepts only Element, DocumentType, Comment,
ProcessingInstruction; Element accepts Element, Text, Comment, CDATASection,
ProcessingInstruction, EntityReference; Text, Comment, CDATASection,
ProcessingInstruction and Attribute nodes accept no children), and every
failure carries the HierarchyViolation error kind. -/
theorem claim1_append_child_kind_table :
    ∀ pk : NodeKind,
      pk ∈ [NodeKind.document, NodeKind.element, NodeKind.text, NodeKind.comment,
        NodeKind.cdata, NodeKind.procInst, NodeKind.attr] →
      ∀ ck : NodeKind,
        (((appendChild (kindPairState pk ck) 1 2).1 = none) ↔
          ((pk = NodeKind.document ∧
             (ck = NodeKind.element ∨ ck = NodeKind.docType ∨ ck = NodeKind.comment ∨
               ck = NodeKind.procInst)) ∨
           (pk = NodeKind.element ∧
             (ck = NodeKind.element ∨ ck = NodeKind.text ∨ ck = NodeKind.comment ∨
               ck = NodeKind.cdata ∨ ck = NodeKind.procInst ∨ ck = NodeKind.entityRef)))) ∧
        ((appendChild (kindPairState pk ck) 1 2).1 = none ∨
         (appendChild (kindPairState pk ck) 1 2).1 = some DomError.hierarchyViolation) := by
  decide

/-- Witness for C1: appending an Element to a Document succeeds. -/
theorem claim1_witness :
    (appendChild (kindPairState NodeKind.document NodeKind.element) 1 2).1 = none := by
  have h := claim1_append_child_kind_table NodeKind.document (by decide) NodeKind.element
  exact h.1.mpr (Or.inl ⟨rfl, Or.inl rfl⟩)

/-- Claim C2 (amended): for every stored, non-read-only node N, appending N
to itself fails with HierarchyViolation, and inserting any same-document
ancestor A of N under N (via append_child or insert_before at any
position) also fails with HierarchyViolation. -/
theorem claim2_insert_ancestor_rejected (s : DomState) (n a : Nat) (r : Option Nat)
    (nn an : Node)
    (hn : getNode s n = some nn) (ha : getNode s a = some an)
    (hro : nn.readOnly = false) (hod : nn.ownerDocument = an.ownerDocument)
    (hanc : a = n ∨ isAncestor s a n = true) :
    appendChild s n a = (some DomError.hierarchyViolation, s) ∧
    insertBefore s n a r = (some DomError.hierarchyViolation, s) :=
  ⟨insertBefore_hier_on_cycle s n a none nn an hn ha hro hod hanc,
   insertBefore_hier_on_cycle s n a r nn an hn ha hro hod hanc⟩

/-- Witness for C2: inserting the document (an ancestor) under its own
element child fails with HierarchyViolation. -/
theorem claim2_witness :
    appendChild chainState 1 0 = (some DomError.hierarchyViolation, chainState) ∧
    insertBefore chainState 1 0 none = (some DomError.hierarchyViolation, chainState) :=
  claim2_insert_ancestor_rejected chainState 1 0 none chainElem chainDoc (by decide)
    (by decide) (by decide) (by decide) (Or.inr (by decide))

/-- Counterexample for C2 as stated: a read-only node appended to itself is
rejected with NoModificationAllowed, not HierarchyViolation, because the
read-only check precedes the cycle check in the spec's legality order. -/
theorem claim2_counterexample :
    (appendChild roState 2 2).1 = some DomError.noModificationAllowed ∧
    DomError.noModificationAllowed ≠ DomError.hierarchyViolation := by
  decide

/-- Claim C3 (amended): for every non-read-only target P owned by document
D2 and node N owned by document D1 with D1 ≠ D2, appending N under P fails
with WrongOwningDocument and the tree is unchanged. -/
theorem claim3_cross_document_rejected (s : DomState) (p n : Nat) (pn nn : Node)
    (d1 d2 : Nat)
    (hp : getNode s p = some pn) (hn : getNode s n = some nn)
    (hro : pn.readOnly = false)
    (h2 : pn.ownerDocument = some d2) (h1 : nn.ownerDocument = some d1)
    (hne : d1 ≠ d2) :
    appendChild s p n = (some DomError.wrongOwningDocument, s) :=
  insertBefore_wrong_doc s p n pn nn d1 d2 hp hn hro h2 h1 hne

/-- Witness for C3: appending an element of document 0 under document 10
fails with WrongOwningDocument. -/
theorem claim3_witness :
    appendChild crossState 10 1 = (some DomError.wrongOwningDocument, crossState) :=
  claim3_cross_document_rejected crossState 10 1 crossDoc2 crossElem 0 10 (by decide)
    (by decide) (by decide) (by decide) (by decide) (by decide)

/-- Counterexample for C3 as stated: a read-only cross-document target
reports NoModificationAllowed, not WrongOwningDocument, because the
read-only check precedes the owning-document check in the spec's legality
order. -/
theorem claim3_counterexample :
    ((getNode crossState 12).map (fun p => p.ownerDocument)) = some (some 10) ∧
    ((getNode crossState 1).map (fun p => p.ownerDocument)) = some (some 0) ∧
    (appendChild crossState 12 1).1 = some DomError.noModificationAllowed ∧
    DomError.noModificationAllowed ≠ DomError.wrongOwningDocument := by
  decide

/-- Claim C4: every modelled mutation operation is atomic with respect to
failure — whenever insert_before, append_child, replace_child,
remove_child, set_attribute, set_value, set_data or delete_data returns an
error of any kind, the state observable afterwards is exactly the state
before the call. -/
theorem claim4_mutations_atomic_on_failure :
    (∀ (s : DomState) (a b : Nat) (r : Option Nat) (e : DomError),
      (insertBefore s a b r).1 = some e → (insertBefore s a b r).2 = s) ∧
    (∀ (s : DomState) (a b : Nat) (e : DomError),
      (appendChild s a b).1 = some e → (appendChild s a b).2 = s) ∧
    (∀ (s : DomState) (a b c : Nat) (e : DomError),
      (replaceChild s a b c).1 = some e → (replaceChild s a b c).2 = s) ∧
    (∀ (s : DomState) (a b : Nat) (e : DomError),
      (removeChild s a b).1 = some e → (removeChild s a b).2 = s) ∧
    (∀ (s : DomState) (i : Nat) (an av : String) (e : DomError),
      (setAttribute s i an av).1 = some e → (setAttribute s i an av).2 = s) ∧
    (∀ (s : DomState) (i : Nat) (v : String) (e : DomError),
      (setNodeValue s i v).1 = some e → (setNodeValue s i v).2 = s) ∧
    (∀ (s : DomState) (i : Nat) (v : String) (e : DomError),
      (setData s i v).1 = some e → (setData s i v).2 = s) ∧
    (∀ (s : DomState) (i o c : Nat) (e : DomError),
      (deleteDataNode s i o c).1 = some e → (deleteDataNode s i o c).2 = s) :=
  ⟨fun s a b r e h => (insertBefore_fail_keep s a b r).resolve_left (by simp [h]),
   fun s a b e h =>
     (insertBefore_fail_keep s a b none).resolve_left
       (by simp [appendChild] at h ⊢; simp [h]),
   fun s a b c e h => (replaceChild_fail_keep s a b c).resolve_left (by simp [h]),
   fun s a b e h => (removeChild_fail_keep s a b).resolve_left (by simp [h]),
   fun s i an av e h => (setAttribute_fail_keep s i an av).resolve_left (by simp [h]),
   fun s i v e h => (setNodeValue_fail_keep s i v).resolve_left (by simp [h]),
   fun s i v e h => (setData_fail_keep s i v).resolve_left (by simp [h]),
   fun s i o c e h => (deleteDataNode_fail_keep s i o c).resolve_left (by simp [h])⟩

/-- Witness for C4: a failing insert_before on the empty store leaves the
store unchanged. -/
theorem claim4_witness : (insertBefore emptyState 0 0 none).2 = emptyState :=
  claim4_mutations_atomic_on_failure.1 emptyState 0 0 none DomError.notFound (by decide)

/-- Claim C5 (amended): create_document validates the qualified name and
constructs the Document, but does not create or attach a document element;
document_element() on the returned Document is empty until the caller
appends one. -/
theorem claim5_create_document_no_element (ns : Option String) (q : String)
    (dt : Option String) (h : validQName q = true) :
    (createDocument ns q dt).1 = none ∧
    documentElement (createDocument ns q dt).2 0 = none := by
  unfold createDocument
  rw [if_neg (by simp [h])]
  cases dt with
  | none =>
    refine ⟨rfl, ?_⟩
    simp [documentElement, getNode, mkNode]
  | some dn =>
    refine ⟨rfl, ?_⟩
    simp [documentElement, getNode, mkNode, kindIs]

/-- Witness for C5: create_document with the valid name "root" succeeds and
has no document element. -/
theorem claim5_witness :
    (createDocument none "root" none).1 = none ∧
    documentElement (createDocument none "root" none).2 0 = none :=
  claim5_create_document_no_element none "root" none (by decide)

/-- Counterexample for C5 as stated: create_document(nil, "root", nil)
succeeds yet document_element() of the result is empty, not already
non-empty. -/
theorem claim5_counterexample :
    (createDocument none "root" none).1 = none ∧
    (documentElement (createDocument none "root" none).2 0).isSome = false := by
  decide

/-- Claim C6: after create_document(nil, "root", nil) the document has no
document element; create_element("root") followed by append_child attaches
it and document_element() then returns it; and appending (at any position)
a further Element to a Document that already has a distinct Element child
always fails, so a Document keeps at most one Element child. -/
theorem claim6_document_element_scenario :
    documentElement scen1a 0 = none ∧
    (createElement scen1a 0 "root").1 = none ∧
    (appendChild scen1b 0 1).1 = none ∧
    documentElement (appendChild scen1b 0 1).2 0 = some 1 ∧
    (∀ (s : DomState) (d c : Nat) (r : Option Nat) (dn cn : Node) (e : Nat),
      getNode s d = some dn → dn.kind = NodeKind.document →
      getNode s c = some cn → cn.kind = NodeKind.element →
      e ∈ dn.children → e ≠ c → kindIs s e NodeKind.element = true →
      (insertBefore s d c r).1 ≠ none ∧ (appendChild s d c).1 ≠ none) := by
  refine ⟨by decide, by decide, by decide, by decide, ?_⟩
  intro s d c r dn cn e hd hdk hc hck he hec hke
  have key : ∀ rr : Option Nat, (insertBefore s d c rr).1 ≠ none := by
    intro rr
    have hviol : docUniqueViolation s dn c cn = true := by
      unfold docUniqueViolation
      simp only [hdk, hck, beq_self_eq_true, Bool.true_and, Bool.or_eq_true,
        Bool.and_eq_true, List.any_eq_true]
      exact Or.inl ⟨e, he, by simp [hec, hke]⟩
    unfold insertBefore
    rw [hd, hc]
    dsimp only
    split_ifs <;> simp_all
  exact ⟨key r, key none⟩

/-- Witness for C6: a second element cannot be appended to a document that
already has an element child. -/
theorem claim6_witness :
    (insertBefore twoElemState 0 2 none).1 ≠ none ∧
    (appendChild twoElemState 0 2).1 ≠ none :=
  claim6_document_element_scenario.2.2.2.2 twoElemState 0 2 none twoElemDoc twoElemB 1
    (by decide) (by decide) (by decide) (by decide) (by decide) (by decide) (by decide)

/-- Claim C7: has_feature(name, version) is true exactly for the pairs
Core/1.0, Core/2.0, XML/1.0 and XML/2.0, and false for every other pair,
in particular HTML/1.0. -/
theorem claim7_has_feature_exact_pairs :
    (∀ n v, hasFeature n v = true ↔
      ((n = "Core" ∨ n = "XML") ∧ (v = "1.0" ∨ v = "2.0"))) ∧
    hasFeature "Core" "1.0" = true ∧ hasFeature "Core" "2.0" = true ∧
    hasFeature "XML" "1.0" = true ∧ hasFeature "XML" "2.0" = true ∧
    hasFeature "HTML" "1.0" = false := by
  refine ⟨?_, by decide, by decide, by decide, by decide, by decide⟩
  intro n v
  unfold hasFeature featurePairs
  simp only [List.contains, List.elem_iff, List.mem_cons, List.mem_singleton,
    List.not_mem_nil, or_false, Prod.mk.injEq]
  tauto

/-- Claim C8: the character-data offset/count operations substring_data,
delete_data, insert_data and replace_data are bounds-checked against the
data length and fail with IndexOutOfRange exactly when the offset or count
is out of range; on a Text node with data "hello", delete_data(1, 3)
leaves "ho" while delete_data(10, 1) fails with IndexOutOfRange and leaves
the node untouched. -/
theorem claim8_character_data_bounds :
    (∀ d off cnt, substringData d off cnt = Except.error DomError.indexOutOfRange ↔
        (off > d.length ∨ off + cnt > d.length)) ∧
    (∀ d off cnt, deleteData d off cnt = Except.error DomError.indexOutOfRange ↔
        (off > d.length ∨ off + cnt > d.length)) ∧
    (∀ d off arg, insertData d off arg = Except.error DomError.indexOutOfRange ↔
        off > d.length) ∧
    (∀ d off cnt arg, replaceData d off cnt arg = Except.error DomError.indexOutOfRange ↔
        (off > d.length ∨ off + cnt > d.length)) ∧
    deleteData "hello" 1 3 = Except.ok "ho" ∧
    deleteData "hello" 10 1 = Except.error DomError.indexOutOfRange ∧
    (deleteDataNode helloState 0 1 3).1 = none ∧
    ((getNode (deleteDataNode helloState 0 1 3).2 0).map Node.value) = some (some "ho") ∧
    deleteDataNode helloState 0 10 1 = (some DomError.indexOutOfRange, helloState) := by
  refine ⟨?_, ?_, ?_, ?_, by decide, by decide, by decide, by decide, by decide⟩
  · intro d off cnt
    unfold substringData
    split <;> simp_all
  · intro d off cnt
    unfold deleteData
    split <;> simp_all
  · intro d off arg
    unfold insertData
    split <;> simp_all
  · intro d off cnt arg
    unfold replaceData
    split <;> simp_all

/-- Claim C9: normalize() is idempotent — applying it twice yields the tree
obtained by applying it once — and its result has no adjacent and no empty
childless-Text children at any level. -/
theorem claim9_normalize_idempotent :
    (∀ t, XTree.normalize (XTree.normalize t) = XTree.normalize t) ∧
    (∀ t, allNormal (XTree.normalize t) = true) :=
  ⟨xnormalize_idem, allNormal_normalize⟩

/-- Claim C10: is_supported has exactly the acceptance set of has_feature —
it is true precisely for feature "Core" or "XML" at version "1.0" or
"2.0". -/
theorem claim10_is_supported_agrees :
    (∀ f v, isSupported f v = hasFeature f v) ∧
    (∀ f v, isSupported f v = true ↔
      ((f = "Core" ∨ f = "XML") ∧ (v = "1.0" ∨ v = "2.0"))) := by
  constructor
  · intro f v
    rw [Bool.eq_iff_iff]
    unfold isSupported hasFeature featurePairs
    simp only [List.contains, List.elem_iff, List.mem_cons, List.mem_singleton,
      List.not_mem_nil, or_false, Prod.mk.injEq, Bool.and_eq_true, Bool.or_eq_true,
      beq_iff_eq]
    tauto
  · intro f v
    simp [isSupported, Bool.and_eq_true, Bool.or_eq_true, beq_iff_eq]
